import Mathlib

/-!
Verification of the calibrated real-time classification pipeline of the
blocks49 repository: the float32-to-float16 tensor conversion, the
dots-per-track calibration formula, the patch-extraction geometry, the
single-flight classify queue, the live-capture backpressure loop, the
worker message handler, and the marker-validation staleness guard.

Each definition is a shallow embedding of one function of the source
(`src/ui/src/app/classifier.ts` alias `src/unnamed/part_020`,
`src/ui/src/api/layout.ts`, `src/ui/src/rr-live-view.ts`,
`src/ui/src/app/classifier.worker.ts`, `src/ui/src/rr-marker.ts`).
JavaScript numbers are idealized as `ℚ` or `ℝ`; the float16 converter is
embedded exactly, on 32-bit patterns, because the source operates on the
raw IEEE-754 bits.
-/

set_option maxRecDepth 1000000

/-!
## Float32 → Float16 conversion (`float32ToFloat16` in classifier.ts)

The source reinterprets each 32-bit float as a signed 32-bit integer `x`
and computes `s = (x >> 16) & 0x8000`, `e = ((x >> 23) & 0xff) - 127 + 15`,
`m = (x >> 13) & 0x03ff`, flushing `e <= 0` to the signed zero `s` and
`e >= 31` to the signed infinity `s | 0x7c00`.  Because every `&` mask
keeps only bits that an arithmetic and a logical right shift fill
identically, the function is embedded on the unsigned 32-bit pattern with
logical shifts; this is bit-for-bit the behaviour of the JavaScript code.
-/

def float32ToFloat16Elem (x : Nat) : Nat :=
  let s : Nat := (x >>> 16) &&& 0x8000
  let e : Int := (((x >>> 23) &&& 0xff : Nat) : Int) - 127 + 15
  let m : Nat := (x >>> 13) &&& 0x03ff
  if e ≤ 0 then s
  else if 31 ≤ e then s ||| 0x7c00
  else s ||| (e.toNat <<< 10) ||| m

/-- The element-wise map over the whole buffer (`float32ToFloat16` loops
over the array and converts each element independently). -/
def float32ToFloat16 (float32Array : List Nat) : List Nat :=
  float32Array.map float32ToFloat16Elem

/-- Exact value of a finite float32 bit pattern, scaled by `2 ^ 149` so the
value is an integer (every finite float32 is a multiple of `2 ^ (-149)`).
Patterns with exponent field 255 (infinity, NaN) are not finite. -/
def f32ValZ (x : Nat) : Int :=
  let sgn : Int := if x / 2 ^ 31 % 2 = 1 then -1 else 1
  let ef : Nat := x / 2 ^ 23 % 256
  let mf : Nat := x % 2 ^ 23
  if ef = 0 then sgn * mf
  else sgn * ((2 ^ 23 + mf) * 2 ^ (ef - 1))

/-- Exact value of a finite float16 bit pattern, scaled by the same
`2 ^ 149` so float16 and float32 values share one integer grid. -/
def halfValZ (y : Nat) : Int :=
  let sgn : Int := if y / 2 ^ 15 % 2 = 1 then -1 else 1
  let ef : Nat := y / 2 ^ 10 % 32
  let mf : Nat := y % 2 ^ 10
  if ef = 0 then sgn * (mf * 2 ^ 125)
  else sgn * ((2 ^ 10 + mf) * 2 ^ (ef + 124))

/-- A float16 bit pattern is finite when its exponent field is not 31. -/
def isFiniteHalfPattern (y : Nat) : Prop := y / 2 ^ 10 % 32 ≠ 31

instance (y : Nat) : Decidable (isFiniteHalfPattern y) := by
  unfold isFiniteHalfPattern
  exact inferInstance

/-- Modelled from the spec: `y` is a round-to-nearest half-precision
encoding of the value `v` (scaled by `2 ^ 149`) when `y` is finite and no
finite float16 pattern lies strictly closer to `v`.  This is the property
the spec asserts of the conversion; it is compared against the embedded
source function `float32ToFloat16Elem`. -/
def isNearestHalfEncoding (v : Int) (y : Nat) : Prop :=
  isFiniteHalfPattern y ∧
    ∀ z : Fin 65536, isFiniteHalfPattern z.val → |halfValZ y - v| ≤ |halfValZ z.val - v|

/-- Sign field of a float32 pattern. -/
def f32Sign (x : Nat) : Nat := x / 2 ^ 31 % 2

/-- Exponent field of a float32 pattern. -/
def f32Exp (x : Nat) : Nat := x / 2 ^ 23 % 256

/-- Mantissa field of a float32 pattern. -/
def f32Man (x : Nat) : Nat := x % 2 ^ 23

/-!
## Calibration (`Layout.dots_per_track` in layout.ts)

The layout record stores the two calibration points, the reference
distance in millimetres and the scale name.  Absent coordinates are read
as 0 by the source (`this._dataInternal.p1x || 0`), so the embedding uses
plain real coordinates with 0 standing for the unset default.
-/

def Scale2Number (s : String) : Option ℚ :=
  if s = "G" then some 25
  else if s = "O" then some 48
  else if s = "S" then some 64
  else if s = "HO" then some 87
  else if s = "T" then some 72
  else if s = "N" then some 160
  else if s = "Z" then some 96
  else none

def standard_gauge_mm : ℚ := 1435

structure CalData where
  p1x : ℝ
  p1y : ℝ
  p2x : ℝ
  p2y : ℝ
  referenceDistanceMm : ℝ
  scale : String

/-- The `scale` getter: `Scale2Number[this._dataInternal.scale] || 87`. -/
def scaleOf (L : CalData) : ℚ := (Scale2Number L.scale).getD 87

/-- The `dots_per_track` getter.  The first guard is the line
`if (!p1x && !p1y && !p2x && !p2y) return -1` (all four coordinates
falsy); the second is `if (!distMm || distMm <= 0) return -1`; otherwise
the result is `(distPx / distMm) * (standard_gauge_mm / scale)` with
`distPx` the Euclidean distance between the two points. -/
noncomputable def dots_per_track (L : CalData) : ℝ :=
  if L.p1x = 0 ∧ L.p1y = 0 ∧ L.p2x = 0 ∧ L.p2y = 0 then -1
  else
    let distPx := Real.sqrt ((L.p2x - L.p1x) ^ 2 + (L.p2y - L.p1y) ^ 2)
    if L.referenceDistanceMm ≤ 0 then -1
    else distPx / L.referenceDistanceMm * ((standard_gauge_mm : ℝ) / (scaleOf L : ℝ))

/-!
## Patch extraction geometry (`Classifier.patch` in classifier.ts)

`patch` computes `scaleFactor = config.dpt / img_dpt`,
`srcSize = cropSize / scaleFactor`, fills a `cropSize × cropSize` canvas
with black, and draws the source rectangle of side `srcSize` centred on
`center` into the full destination rectangle.  The embedding records the
canvas dimensions, the fill colour and the nine `drawImage` arguments.
-/

structure Point2 where
  x : ℚ
  y : ℚ

structure ClassifierConfig where
  labels : List String
  dpt : ℚ
  cropSize : ℚ

/-- The local `scaleFactor = this._config.dpt / img_dpt`. -/
def patchScaleFactor (config : ClassifierConfig) (img_dpt : ℚ) : ℚ :=
  config.dpt / img_dpt

structure PatchGeom where
  canvasWidth : ℚ
  canvasHeight : ℚ
  fillStyle : String
  sx : ℚ
  sy : ℚ
  sw : ℚ
  sh : ℚ
  dx : ℚ
  dy : ℚ
  dw : ℚ
  dh : ℚ

def patchGeometry (config : ClassifierConfig) (center : Point2) (img_dpt : ℚ) : PatchGeom :=
  let scaleFactor := patchScaleFactor config img_dpt
  let dstSize := config.cropSize
  let srcSize := dstSize / scaleFactor
  let sx := center.x - srcSize / 2
  let sy := center.y - srcSize / 2
  { canvasWidth := dstSize, canvasHeight := dstSize, fillStyle := "black",
    sx := sx, sy := sy, sw := srcSize, sh := srcSize,
    dx := 0, dy := 0, dw := dstSize, dh := dstSize }

/-!
## Single-flight queue (`Classifier.classify` in classifier.ts)

`classify` chains every call on `this._queue` and replaces the queue by
`result.catch(() => {})`, so the body of call `i` (ensure-initialized plus
`_doClassify`) starts only after call `i - 1` has settled, and a failure
of call `i` still lets call `i + 1` proceed.  The embedding is the
induced operational model: each submitted job is `queued` until its
predecessor in submission order has `settled`, then `running` for a
nondeterministic number of steps, then `settled`.
-/

inductive JobPhase where
  | queued : JobPhase
  | running : Nat → JobPhase
  | settled : JobPhase
deriving DecidableEq

/-- One scheduler step of the promise chain: a job may start only when it
is the head of the chain (its predecessor has settled), may make internal
progress, and settles when its work is exhausted. -/
inductive QStep : List JobPhase → List JobPhase → Prop where
  | start (ps : List JobPhase) (i k : Nat)
      (h : ps[i]? = some JobPhase.queued)
      (hprev : i = 0 ∨ ps[i - 1]? = some JobPhase.settled) :
      QStep ps (ps.set i (JobPhase.running k))
  | work (ps : List JobPhase) (i k : Nat)
      (h : ps[i]? = some (JobPhase.running (k + 1))) :
      QStep ps (ps.set i (JobPhase.running k))
  | finish (ps : List JobPhase) (i : Nat)
      (h : ps[i]? = some (JobPhase.running 0)) :
      QStep ps (ps.set i JobPhase.settled)

/-- States reachable from `n` classify calls submitted to one Classifier. -/
def queueReachable (n : Nat) (ps : List JobPhase) : Prop :=
  Relation.ReflTransGen QStep (List.replicate n JobPhase.queued) ps

/-- Chain invariant: once a job is no longer queued, every earlier job has
settled. -/
def QInv (ps : List JobPhase) : Prop :=
  ∀ (i j : Nat) (phi : JobPhase), j < i → ps[i]? = some phi → phi ≠ JobPhase.queued →
    ps[j]? = some JobPhase.settled

/-!
## Live capture loop (`RrLiveView` in rr-live-view.ts)

The `requestAnimationFrame` tick captures and posts a frame only when the
worker is not busy; `_sendFrameToWorker` checks its guards, sets the busy
flag, and posts exactly one `classify-batch` message (or clears the flag
again if frame capture throws).  A worker response removes one batch from
flight; per the `onmessage` handler only a `results` response clears the
busy flag.
-/

structure TickEnv where
  connected : Bool
  videoReady : Bool
  guardsOk : Bool
  captureThrows : Bool

structure LiveState where
  isWorkerBusy : Bool
  inflight : Nat
deriving DecidableEq

/-- `_sendFrameToWorker`: early-return guards (layout, worker, markers,
positive dpt) leave the state untouched; otherwise the busy flag is set
and one `classify-batch` message is posted, unless frame capture throws,
in which case the catch clause clears the flag and nothing is posted.
Returns the new state and the number of messages posted. -/
def sendFrameToWorker (env : TickEnv) (st : LiveState) : LiveState × Nat :=
  if env.guardsOk = false then (st, 0)
  else
    let st1 := { st with isWorkerBusy := true }
    if env.captureThrows = true then ({ st1 with isWorkerBusy := false }, 0)
    else ({ st1 with inflight := st1.inflight + 1 }, 1)

/-- One `requestAnimationFrame` tick of `_startLoop`.  Returns the new
state, the number of `classify-batch` messages posted, and whether the
tick re-armed itself for the next cycle. -/
def tick (env : TickEnv) (st : LiveState) : LiveState × Nat × Bool :=
  if env.connected = false then (st, 0, false)
  else if st.isWorkerBusy = false ∧ env.videoReady = true then
    let r := sendFrameToWorker env st
    (r.1, r.2, true)
  else (st, 0, true)

/-- Effect of one worker response on the loop state: one batch leaves
flight; only a `results` response clears the busy flag (the `error`
branch of `onmessage` only logs). -/
def applyResponse (st : LiveState) (isError : Bool) : LiveState :=
  if isError = true then { st with inflight := st.inflight - 1 }
  else { st with inflight := st.inflight - 1, isWorkerBusy := false }

/-- Interleaving of scheduling ticks and worker responses; a response can
only arrive for a batch that is in flight. -/
inductive LStep : LiveState → LiveState → Prop where
  | tickStep (env : TickEnv) (st : LiveState) : LStep st (tick env st).1
  | respondStep (st : LiveState) (isError : Bool) (h : 0 < st.inflight) :
      LStep st (applyResponse st isError)

/-- States reachable from the initial idle loop state. -/
def liveReachable (st : LiveState) : Prop :=
  Relation.ReflTransGen LStep { isWorkerBusy := false, inflight := 0 } st

/-- Loop invariant: at most one batch is in flight, and a batch in flight
implies the busy flag is set. -/
def LInv (st : LiveState) : Prop :=
  st.inflight ≤ 1 ∧ (st.inflight = 1 → st.isWorkerBusy = true)

/-!
## Interactive-thread message handler (`_initWorker` onmessage and
`_handleWorkerResults` in rr-live-view.ts)

On a `results` message the handler clears the busy flag, rebuilds the
live marker list from the current layout markers, and updates the
throttled display state; on an `error` message it only logs; other
message types are ignored.
-/

inductive MainMsg where
  | results (res : List (String × String)) (inferenceTimeMs : ℚ) (executionProvider : String)
  | error (msg : String)
  | initOk

structure LiveMarker where
  id : String
  x : ℚ
  y : ℚ
  prediction : String
deriving DecidableEq

structure DisplayState where
  markers : List LiveMarker
  tTotMs : ℚ
  inferenceTimeMs : ℚ
  executionProvider : String

structure MainState where
  isWorkerBusy : Bool
  displayState : DisplayState
  lastDisplayUpdateTime : ℚ
  tTotMs : ℚ

/-- `_handleWorkerResults`: clears the busy flag first, returns early if
the layout has no marker map, otherwise builds the marker list
(`markers[id]?.x || 0`) and, when the throttle interval has elapsed,
publishes the new display state. -/
def handleWorkerResults (layoutMarkers : Option (String → Option Point2))
    (now interval : ℚ) (st : MainState) (res : List (String × String))
    (inferenceTimeMs : ℚ) (executionProvider : String) : MainState :=
  let st1 := { st with isWorkerBusy := false }
  match layoutMarkers with
  | none => st1
  | some mk =>
    let classificationResults : List LiveMarker := res.map fun p =>
      { id := p.1, x := ((mk p.1).map Point2.x).getD 0,
        y := ((mk p.1).map Point2.y).getD 0, prediction := p.2 }
    if interval ≤ now - st1.lastDisplayUpdateTime then
      { st1 with
        lastDisplayUpdateTime := now,
        displayState :=
          { markers := classificationResults, tTotMs := st1.tTotMs,
            inferenceTimeMs := inferenceTimeMs,
            executionProvider := executionProvider } }
    else st1

/-- The `onmessage` dispatch of `_initWorker`: `results` goes to
`_handleWorkerResults`, `error` only logs (state unchanged), anything
else is ignored. -/
def handleWorkerMessage (layoutMarkers : Option (String → Option Point2))
    (now interval : ℚ) (st : MainState) (msg : MainMsg) : MainState :=
  match msg with
  | MainMsg.results res t ep => handleWorkerResults layoutMarkers now interval st res t ep
  | MainMsg.error _ => st
  | MainMsg.initOk => st

/-!
## Worker batch handler (`onmessage` case `classify-batch` in
classifier.worker.ts)

The guard `if (!classifier || isBusy) return;` drops the batch silently.
Otherwise per-marker failures are caught individually, the bitmap is
closed after `Promise.all`, and the results message is posted; an
exception escaping to the outer catch posts an `error` message instead.
`imageBitmap.close()` is only reached on paths where no exception fired
before it.  The `finally` clause always clears the worker busy flag.
-/

structure WorkerState where
  initialized : Bool
  isBusy : Bool
deriving DecidableEq

/-- How the body of the batch handler resolves: it completes normally
(with per-marker successes), or an exception escapes to the outer catch
before `imageBitmap.close()` (e.g. a malformed marker map makes
`Object.entries` throw), or after it (e.g. `postMessage` throws). -/
inductive BatchOutcome where
  | completes (results : List (String × String)) (inferenceTimeMs : ℚ)
  | throwsBeforeClose (msg : String)
  | throwsAfterClose (msg : String)

inductive WorkerOut where
  | results (results : List (String × String)) (inferenceTimeMs : ℚ)
  | error (msg : String)
  | initOk
deriving DecidableEq

structure BatchEffect where
  state : WorkerState
  posted : List WorkerOut
  bitmapClosed : Bool
deriving DecidableEq

def handleClassifyBatch (st : WorkerState) (outcome : BatchOutcome) : BatchEffect :=
  if st.initialized = false ∨ st.isBusy = true then
    { state := st, posted := [], bitmapClosed := false }
  else
    match outcome with
    | BatchOutcome.completes res t =>
      { state := { st with isBusy := false },
        posted := [WorkerOut.results res t], bitmapClosed := true }
    | BatchOutcome.throwsBeforeClose m =>
      { state := { st with isBusy := false },
        posted := [WorkerOut.error m], bitmapClosed := false }
    | BatchOutcome.throwsAfterClose m =>
      { state := { st with isBusy := false },
        posted := [WorkerOut.error m], bitmapClosed := true }

/-!
## Validation staleness guard (`RrMarker.validateMarkers` in rr-marker.ts)

Each per-marker task computes
`requestId = (this._markerValidationRequests[id] || 0) + 1`, stores it,
and, once the classification resolves, writes the result only if the
image index is unchanged and `_markerValidationRequests[id]` still equals
the captured `requestId`.
-/

structure ValidResult where
  x : ℚ
  y : ℚ
  type : String
  matched : Bool
  predicted : String
deriving DecidableEq

structure MarkerState where
  imageIndex : Int
  markerValidationRequests : String → Nat
  validationResults : String → Option ValidResult

/-- Issue a new validation request for marker `id`: bump the per-marker
sequence number and return it alongside the new state. -/
def issueRequest (st : MarkerState) (id : String) : MarkerState × Nat :=
  let requestId := st.markerValidationRequests id + 1
  ({ st with
      markerValidationRequests := fun k =>
        if k = id then requestId else st.markerValidationRequests k },
    requestId)

/-- Deliver the classification result tagged `requestId` for marker `id`,
captured while the view showed `capturedImageIndex`: the stale-result
guard discards it unless the image is unchanged and the tag is still the
latest sequence number issued for that marker. -/
def applyResult (st : MarkerState) (capturedImageIndex : Int) (id : String)
    (requestId : Nat) (res : ValidResult) : MarkerState :=
  if st.imageIndex ≠ capturedImageIndex ∨ st.markerValidationRequests id ≠ requestId then st
  else
    { st with
      validationResults := fun k =>
        if k = id then some res else st.validationResults k }

/-!
## Theorems
-/

/-- Closed form of the converter on a decomposed float32 pattern: the
mantissa is truncated (`mf / 2 ^ 13`), exponents at most 112 flush to the
signed zero, exponents at least 143 flush to the signed infinity. -/
theorem float32ToFloat16Elem_decomp (s ef mf : Nat) (hs : s < 2) (hef : ef < 256)
    (hmf : mf < 2 ^ 23) :
    float32ToFloat16Elem (s * 2 ^ 31 + ef * 2 ^ 23 + mf) =
      if ef ≤ 112 then s * 2 ^ 15
      else if 143 ≤ ef then s * 2 ^ 15 + 0x7C00
      else s * 2 ^ 15 + (ef - 112) * 2 ^ 10 + mf / 2 ^ 13 := by
  have hsign : ((s * 2 ^ 31 + ef * 2 ^ 23 + mf) >>> 16) &&& 0x8000 = s * 2 ^ 15 := by
    rw [Nat.shiftRight_eq_div_pow]
    have hdiv : (s * 2 ^ 31 + ef * 2 ^ 23 + mf) / 2 ^ 16
        = s * 2 ^ 15 + (ef * 2 ^ 7 + mf / 2 ^ 16) := by omega
    rw [hdiv, show (0x8000 : Nat) = 2 ^ 15 from rfl, Nat.and_two_pow]
    rw [Nat.testBit_to_div_mod]
    have hq : (s * 2 ^ 15 + (ef * 2 ^ 7 + mf / 2 ^ 16)) / 2 ^ 15 % 2 = s := by omega
    rw [hq]
    interval_cases s <;> simp
  have hexp : ((s * 2 ^ 31 + ef * 2 ^ 23 + mf) >>> 23) &&& 0xff = ef := by
    rw [Nat.shiftRight_eq_div_pow]
    have hdiv : (s * 2 ^ 31 + ef * 2 ^ 23 + mf) / 2 ^ 23 = s * 2 ^ 8 + ef := by omega
    rw [hdiv, show (0xff : Nat) = 2 ^ 8 - 1 from rfl, Nat.and_pow_two_sub_one_eq_mod]
    omega
  have hman : ((s * 2 ^ 31 + ef * 2 ^ 23 + mf) >>> 13) &&& 0x03ff = mf / 2 ^ 13 := by
    rw [Nat.shiftRight_eq_div_pow]
    have hdiv : (s * 2 ^ 31 + ef * 2 ^ 23 + mf) / 2 ^ 13
        = s * 2 ^ 18 + ef * 2 ^ 10 + mf / 2 ^ 13 := by omega
    rw [hdiv, show (0x03ff : Nat) = 2 ^ 10 - 1 from rfl, Nat.and_pow_two_sub_one_eq_mod]
    omega
  unfold float32ToFloat16Elem
  simp only [hsign, hexp, hman]
  have hmlt : mf / 2 ^ 13 < 2 ^ 10 := by omega
  split_ifs with h1 h2 h3 h4 h5 <;> try omega
  · rw [show s * 2 ^ 15 = 2 ^ 15 * s from Nat.mul_comm _ _]
    exact (Nat.mul_add_lt_is_or (by norm_num) s).symm
  · have htn : (((ef : Nat) : Int) - 127 + 15).toNat = ef - 112 := by omega
    rw [htn, Nat.shiftLeft_eq, Nat.lor_assoc]
    rw [show (ef - 112) * 2 ^ 10 = 2 ^ 10 * (ef - 112) from Nat.mul_comm _ _]
    rw [show s * 2 ^ 15 = 2 ^ 15 * s from Nat.mul_comm _ _]
    rw [← Nat.mul_add_lt_is_or hmlt (ef - 112)]
    rw [← Nat.mul_add_lt_is_or (show 2 ^ 10 * (ef - 112) + mf / 2 ^ 13 < 2 ^ 15 by omega) s]
    omega

/-- The float16 pattern produced in the normal range decodes to exactly
the float32 value whose 13 low mantissa bits were zeroed. -/
theorem halfValZ_truncationPattern (s ef mf : Nat) (hs : s < 2) (h1 : 113 ≤ ef)
    (h2 : ef ≤ 142) (hmf : mf < 2 ^ 23) :
    halfValZ (s * 2 ^ 15 + (ef - 112) * 2 ^ 10 + mf / 2 ^ 13)
      = f32ValZ (s * 2 ^ 31 + ef * 2 ^ 23 + (mf / 2 ^ 13) * 2 ^ 13) := by
  unfold halfValZ f32ValZ
  have e1 : (s * 2 ^ 15 + (ef - 112) * 2 ^ 10 + mf / 2 ^ 13) / 2 ^ 15 % 2 = s := by omega
  have e2 : (s * 2 ^ 15 + (ef - 112) * 2 ^ 10 + mf / 2 ^ 13) / 2 ^ 10 % 32 = ef - 112 := by
    omega
  have e3 : (s * 2 ^ 15 + (ef - 112) * 2 ^ 10 + mf / 2 ^ 13) % 2 ^ 10 = mf / 2 ^ 13 := by
    omega
  have f1 : (s * 2 ^ 31 + ef * 2 ^ 23 + mf / 2 ^ 13 * 2 ^ 13) / 2 ^ 31 % 2 = s := by omega
  have f2 : (s * 2 ^ 31 + ef * 2 ^ 23 + mf / 2 ^ 13 * 2 ^ 13) / 2 ^ 23 % 256 = ef := by omega
  have f3 : (s * 2 ^ 31 + ef * 2 ^ 23 + mf / 2 ^ 13 * 2 ^ 13) % 2 ^ 23
      = mf / 2 ^ 13 * 2 ^ 13 := by omega
  rw [e1, e2, e3, f1, f2, f3]
  have hne1 : ef - 112 ≠ 0 := by omega
  have hne2 : ef ≠ 0 := by omega
  rw [if_neg hne1, if_neg hne2]
  have hpow : ef - 112 + 124 = (ef - 1) + 13 := by omega
  rw [hpow, pow_add]
  have hmul : ((2 : Int) ^ 10 + (mf / 2 ^ 13 : Nat)) * (2 ^ (ef - 1) * 2 ^ 13)
      = ((2 ^ 23 + (mf / 2 ^ 13 * 2 ^ 13 : Nat)) * 2 ^ (ef - 1)) := by
    push_cast
    ring
  rw [hmul]

/-- C3 (counterexample): the conversion is not round-to-nearest.  At the
float32 input 1 + 3·2⁻¹² (bit pattern 0x3F801800) the code produces
0x3C00 (value 1), although the finite float16 pattern 0x3C01
(value 1 + 2⁻¹⁰) lies strictly closer to the input value. -/
theorem float16_truncation_not_round_to_nearest :
    ¬ isNearestHalfEncoding (f32ValZ 0x3F801800) (float32ToFloat16Elem 0x3F801800) :=
  fun h => absurd (h.2 ⟨0x3C01, by decide⟩ (by decide)) (by decide)

/-- C3 (amended): the conversion is element-wise and produces the
round-toward-zero (truncated-mantissa) half-precision encoding: in the
normal range the output decodes to the input value with its 13 low
mantissa bits zeroed; exponent underflow flushes to the signed zero
pattern and overflow to the signed infinity pattern; 1.0 encodes to
0x3C00, 0.0 to 0x0000, and overflowing values to 0x7C00 / 0xFC00. -/
theorem float32ToFloat16_truncation_spec :
    (float32ToFloat16Elem 0x3F800000 = 0x3C00 ∧ float32ToFloat16Elem 0x00000000 = 0x0000 ∧
      float32ToFloat16Elem 0x47800000 = 0x7C00 ∧ float32ToFloat16Elem 0xC7800000 = 0xFC00) ∧
    (∀ (xs : List Nat) (i : Nat),
      (float32ToFloat16 xs)[i]? = xs[i]?.map float32ToFloat16Elem) ∧
    (∀ s ef mf : Nat, s < 2 → ef < 256 → mf < 2 ^ 23 →
      (ef ≤ 112 → float32ToFloat16Elem (s * 2 ^ 31 + ef * 2 ^ 23 + mf) = s * 0x8000) ∧
      (143 ≤ ef → float32ToFloat16Elem (s * 2 ^ 31 + ef * 2 ^ 23 + mf) = s * 0x8000 + 0x7C00) ∧
      (113 ≤ ef → ef ≤ 142 →
        halfValZ (float32ToFloat16Elem (s * 2 ^ 31 + ef * 2 ^ 23 + mf))
          = f32ValZ (s * 2 ^ 31 + ef * 2 ^ 23 + (mf / 2 ^ 13) * 2 ^ 13))) := by
  refine ⟨⟨by decide, by decide, by decide, by decide⟩, ?_, ?_⟩
  · intro xs i
    exact List.getElem?_map float32ToFloat16Elem xs i
  · intro s ef mf hs hef hmf
    have hd := float32ToFloat16Elem_decomp s ef mf hs hef hmf
    refine ⟨?_, ?_, ?_⟩
    · intro h
      rw [hd, if_pos h]
      omega
    · intro h
      rw [hd, if_neg (by omega), if_pos h]
      omega
    · intro h1 h2
      rw [hd, if_neg (by omega), if_neg (by omega)]
      exact halfValZ_truncationPattern s ef mf hs h1 h2 hmf

/-- C3 witness: the truncation clause applied at the concrete pattern
0x3F801800 = 0·2³¹ + 127·2²³ + 0x1800. -/
theorem float32ToFloat16_truncation_spec_witness :
    halfValZ (float32ToFloat16Elem (0 * 2 ^ 31 + 127 * 2 ^ 23 + 0x1800))
      = f32ValZ (0 * 2 ^ 31 + 127 * 2 ^ 23 + (0x1800 / 2 ^ 13) * 2 ^ 13) :=
  (float32ToFloat16_truncation_spec.2.2 0 127 0x1800 (by decide) (by decide)
    (by decide)).2.2 (by decide) (by decide)

/-- Every scale name resolves to a positive denominator (the lookup
defaults to 87). -/
theorem scaleOf_pos (L : CalData) : 0 < scaleOf L := by
  unfold scaleOf Scale2Number
  split_ifs <;> norm_num

/-- The gauge-over-scale factor is positive for every calibration. -/
theorem gauge_over_scale_pos (L : CalData) :
    0 < (standard_gauge_mm : ℝ) / (scaleOf L : ℝ) := by
  apply div_pos
  · norm_num [standard_gauge_mm]
  · exact_mod_cast scaleOf_pos L

/-- C4 (counterexample): a calibration whose first point is the origin
default (0, 0) but whose second point is set, with a positive reference
distance, does not yield the sentinel −1: the all-four-coordinates guard
of the code does not fire. -/
theorem dots_per_track_origin_p1_not_sentinel :
    dots_per_track ⟨0, 0, 110, 10, 100, "HO"⟩ ≠ -1 := by
  unfold dots_per_track
  rw [if_neg (by norm_num)]
  simp only
  rw [if_neg (by norm_num)]
  have h2 : scaleOf ⟨0, 0, 110, 10, 100, "HO"⟩ = 87 := rfl
  rw [h2]
  have hpos : (0 : ℝ) < Real.sqrt (((110 : ℝ) - 0) ^ 2 + ((10 : ℝ) - 0) ^ 2) := by
    apply Real.sqrt_pos.mpr
    norm_num
  have hall : (0 : ℝ) < Real.sqrt (((110 : ℝ) - 0) ^ 2 + ((10 : ℝ) - 0) ^ 2) / 100
      * ((standard_gauge_mm : ℝ) / ((87 : ℚ) : ℝ)) := by
    apply mul_pos
    · positivity
    · norm_num [standard_gauge_mm]
  intro h
  rw [h] at hall
  norm_num at hall

/-- C4 (amended): `dots_per_track` returns the sentinel −1 exactly when
all four calibration coordinates equal the origin default 0 (both points
unset) or the reference distance is not positive; a calibration in which
only one point sits at the origin is not sent to the sentinel. -/
theorem dots_per_track_sentinel_iff (L : CalData) :
    dots_per_track L = -1 ↔
      ((L.p1x = 0 ∧ L.p1y = 0 ∧ L.p2x = 0 ∧ L.p2y = 0) ∨ L.referenceDistanceMm ≤ 0) := by
  unfold dots_per_track
  split_ifs with h1 h2
  · simp [h1]
  · simp [h2]
  · simp only [h1, h2, or_false, false_or]
    constructor
    · intro heq
      exfalso
      have hnonneg : 0 ≤ Real.sqrt ((L.p2x - L.p1x) ^ 2 + (L.p2y - L.p1y) ^ 2)
          / L.referenceDistanceMm * ((standard_gauge_mm : ℝ) / (scaleOf L : ℝ)) := by
        apply mul_nonneg
        · apply div_nonneg (Real.sqrt_nonneg _)
          linarith [not_le.mp h2]
        · exact le_of_lt (gauge_over_scale_pos L)
      rw [heq] at hnonneg
      norm_num at hnonneg
    · intro hf
      exact hf.elim

/-- C5: the sentinel is returned whenever the reference distance is not
positive, regardless of point values; for a valid calibration the result
is the Euclidean pixel distance divided by the reference distance times
1435 over the scale denominator; the HO scenario p1 = (10, 10),
p2 = (110, 10), 100 mm yields exactly 1435 / 87; and scaling the
displacement between the points by t ≥ 0 scales the result by t. -/
theorem dots_per_track_formula_and_sentinel :
    (∀ L : CalData, L.referenceDistanceMm ≤ 0 → dots_per_track L = -1) ∧
    (∀ L : CalData, ¬(L.p1x = 0 ∧ L.p1y = 0 ∧ L.p2x = 0 ∧ L.p2y = 0) →
      0 < L.referenceDistanceMm →
      dots_per_track L =
        Real.sqrt ((L.p2x - L.p1x) ^ 2 + (L.p2y - L.p1y) ^ 2) / L.referenceDistanceMm
          * ((1435 : ℝ) / (scaleOf L : ℝ))) ∧
    dots_per_track ⟨10, 10, 110, 10, 100, "HO"⟩ = 1435 / 87 ∧
    (∀ (L : CalData) (t : ℝ), 0 ≤ t → 0 < L.referenceDistanceMm →
      ¬(L.p1x = 0 ∧ L.p1y = 0 ∧
        L.p1x + t * (L.p2x - L.p1x) = 0 ∧ L.p1y + t * (L.p2y - L.p1y) = 0) →
      ¬(L.p1x = 0 ∧ L.p1y = 0 ∧ L.p2x = 0 ∧ L.p2y = 0) →
      dots_per_track
          { L with p2x := L.p1x + t * (L.p2x - L.p1x), p2y := L.p1y + t * (L.p2y - L.p1y) }
        = t * dots_per_track L) := by
  have hformula : ∀ L : CalData, ¬(L.p1x = 0 ∧ L.p1y = 0 ∧ L.p2x = 0 ∧ L.p2y = 0) →
      0 < L.referenceDistanceMm →
      dots_per_track L =
        Real.sqrt ((L.p2x - L.p1x) ^ 2 + (L.p2y - L.p1y) ^ 2) / L.referenceDistanceMm
          * ((1435 : ℝ) / (scaleOf L : ℝ)) := by
    intro L hguard href
    unfold dots_per_track
    rw [if_neg hguard]
    simp only
    rw [if_neg (not_le.mpr href)]
    norm_num [standard_gauge_mm]
  refine ⟨?_, hformula, ?_, ?_⟩
  · intro L href
    unfold dots_per_track
    split_ifs with h1
    · rfl
    · rfl
  · rw [hformula ⟨10, 10, 110, 10, 100, "HO"⟩ (by norm_num) (by norm_num)]
    have h2 : scaleOf ⟨10, 10, 110, 10, 100, "HO"⟩ = 87 := rfl
    rw [h2]
    have h1 : ((110 : ℝ) - 10) ^ 2 + ((10 : ℝ) - 10) ^ 2 = 100 ^ 2 := by norm_num
    simp only [h1]
    rw [Real.sqrt_sq (by norm_num : (0 : ℝ) ≤ 100)]
    norm_num
  · intro L t ht href hguardt hguard
    rw [hformula _ hguardt (by simpa using href), hformula L hguard href]
    simp only
    have hsq : (L.p1x + t * (L.p2x - L.p1x) - L.p1x) ^ 2
        + (L.p1y + t * (L.p2y - L.p1y) - L.p1y) ^ 2
        = t ^ 2 * ((L.p2x - L.p1x) ^ 2 + (L.p2y - L.p1y) ^ 2) := by ring
    rw [hsq, Real.sqrt_mul (sq_nonneg t), Real.sqrt_sq_eq_abs, abs_of_nonneg ht]
    have hscale :
        scaleOf
            { L with p2x := L.p1x + t * (L.p2x - L.p1x), p2y := L.p1y + t * (L.p2y - L.p1y) }
          = scaleOf L := rfl
    rw [hscale]
    ring

/-- C5 witness: the sentinel clause applied at a calibration with
negative reference distance, and the formula clause applied at the HO
scenario calibration. -/
theorem dots_per_track_formula_and_sentinel_witness :
    dots_per_track ⟨1, 2, 3, 4, -5, "HO"⟩ = -1 ∧
    dots_per_track ⟨10, 10, 110, 10, 100, "HO"⟩ = 1435 / 87 :=
  ⟨dots_per_track_formula_and_sentinel.1 ⟨1, 2, 3, 4, -5, "HO"⟩ (by norm_num),
   dots_per_track_formula_and_sentinel.2.2.1⟩

/-- C9: the scale factor is targetDpt / sourceDpt, the source square side
is outputSize / scaleFactor and is centred on the given centre, and the
destination is an outputSize × outputSize canvas pre-filled with the
background colour; with model dpt 28, crop_size 96 and frame DPT 14, a
48 × 48 source square becomes a 96 × 96 output at scale factor 2. -/
theorem patch_geometry_spec :
    (∀ (config : ClassifierConfig) (center : Point2) (img_dpt : ℚ),
      img_dpt ≠ 0 → config.dpt ≠ 0 →
      (patchGeometry config center img_dpt).sw * patchScaleFactor config img_dpt
          = config.cropSize ∧
      (patchGeometry config center img_dpt).sw = config.cropSize * img_dpt / config.dpt ∧
      (patchGeometry config center img_dpt).sx
          + (patchGeometry config center img_dpt).sw / 2 = center.x ∧
      (patchGeometry config center img_dpt).sy
          + (patchGeometry config center img_dpt).sh / 2 = center.y ∧
      (patchGeometry config center img_dpt).sh = (patchGeometry config center img_dpt).sw ∧
      (patchGeometry config center img_dpt).canvasWidth = config.cropSize ∧
      (patchGeometry config center img_dpt).canvasHeight = config.cropSize ∧
      (patchGeometry config center img_dpt).dx = 0 ∧
      (patchGeometry config center img_dpt).dy = 0 ∧
      (patchGeometry config center img_dpt).dw = config.cropSize ∧
      (patchGeometry config center img_dpt).dh = config.cropSize ∧
      (patchGeometry config center img_dpt).fillStyle = "black") ∧
    (patchScaleFactor ⟨["track", "train", "other"], 28, 96⟩ 14 = 2 ∧
      (patchGeometry ⟨["track", "train", "other"], 28, 96⟩ ⟨200, 300⟩ 14).sw = 48 ∧
      (patchGeometry ⟨["track", "train", "other"], 28, 96⟩ ⟨200, 300⟩ 14).sh = 48 ∧
      (patchGeometry ⟨["track", "train", "other"], 28, 96⟩ ⟨200, 300⟩ 14).sx = 176 ∧
      (patchGeometry ⟨["track", "train", "other"], 28, 96⟩ ⟨200, 300⟩ 14).sy = 276 ∧
      (patchGeometry ⟨["track", "train", "other"], 28, 96⟩ ⟨200, 300⟩ 14).dw = 96 ∧
      (patchGeometry ⟨["track", "train", "other"], 28, 96⟩ ⟨200, 300⟩ 14).dh = 96) := by
  constructor
  · intro config center img_dpt hd hc
    unfold patchGeometry patchScaleFactor
    refine ⟨?_, ?_, ?_, ?_, rfl, rfl, rfl, rfl, rfl, rfl, rfl, rfl⟩
    · field_simp
    · field_simp
    · ring
    · ring
  · unfold patchGeometry patchScaleFactor
    norm_num

/-- C9 witness: the centring and sizing clauses applied at the scenario
configuration. -/
theorem patch_geometry_spec_witness :
    (patchGeometry ⟨["track", "train", "other"], 28, 96⟩ ⟨0, 0⟩ 14).sw
        = (96 : ℚ) * 14 / 28 :=
  (patch_geometry_spec.1 ⟨["track", "train", "other"], 28, 96⟩ ⟨0, 0⟩ 14 (by norm_num)
    (by norm_num)).2.1

/-- Every slot of the initial all-queued state holds `queued`. -/
theorem get_replicate_queued (n i : Nat) (phi : JobPhase)
    (h : (List.replicate n JobPhase.queued)[i]? = some phi) : phi = JobPhase.queued := by
  rw [List.getElem?_replicate] at h
  by_cases hin : i < n
  · simp [hin] at h
    exact h.symm
  · simp [hin] at h

/-- The initial state satisfies the chain invariant vacuously. -/
theorem qInv_init (n : Nat) : QInv (List.replicate n JobPhase.queued) := by
  intro i j phi hj hi hphi
  exact absurd (get_replicate_queued n i phi hi) hphi

/-- The chain invariant is preserved by every scheduler step. -/
theorem qInv_preserved {ps qs : List JobPhase} (hstep : QStep ps qs) (hinv : QInv ps) :
    QInv qs := by
  cases hstep with
  | start i k h hprev =>
    intro a j phi hj ha hphi
    by_cases hai : a = i
    · subst hai
      rcases hprev with h0 | hprevs
      · omega
      · have hi0 : a ≠ 0 := by
          intro h0
          subst h0
          simp only [Nat.zero_sub] at hprevs
          rw [h] at hprevs
          exact absurd (Option.some.inj hprevs) (by simp)
        by_cases hji : j = a - 1
        · subst hji
          rw [List.getElem?_set_ne (by omega)]
          exact hprevs
        · have hold := hinv (a - 1) j JobPhase.settled (by omega) hprevs (by simp)
          rw [List.getElem?_set_ne (by omega)]
          exact hold
    · rw [List.getElem?_set_ne (fun he => hai he.symm)] at ha
      have hsj := hinv a j phi hj ha hphi
      by_cases hji : j = i
      · subst hji
        rw [h] at hsj
        exact absurd (Option.some.inj hsj) (by simp)
      · rw [List.getElem?_set_ne (fun he => hji he.symm)]
        exact hsj
  | work i k h =>
    intro a j phi hj ha hphi
    by_cases hai : a = i
    · subst hai
      have hsj := hinv a j (JobPhase.running (k + 1)) hj h (by simp)
      by_cases hji : j = a
      · omega
      · rw [List.getElem?_set_ne (fun he => hji he.symm)]
        exact hsj
    · rw [List.getElem?_set_ne (fun he => hai he.symm)] at ha
      have hsj := hinv a j phi hj ha hphi
      by_cases hji : j = i
      · subst hji
        rw [h] at hsj
        exact absurd (Option.some.inj hsj) (by simp)
      · rw [List.getElem?_set_ne (fun he => hji he.symm)]
        exact hsj
  | finish i h =>
    intro a j phi hj ha hphi
    by_cases hji : j = i
    · subst hji
      rw [List.getElem?_set_self (List.getElem?_eq_some.mp h).1]
    · rw [List.getElem?_set_ne (fun he => hji he.symm)]
      by_cases hai : a = i
      · subst hai
        exact hinv a j (JobPhase.running 0) hj h (by simp)
      · rw [List.getElem?_set_ne (fun he => hai he.symm)] at ha
        exact hinv a j phi hj ha hphi

/-- The chain invariant holds in every reachable state. -/
theorem qInv_reachable {n : Nat} {ps : List JobPhase} (h : queueReachable n ps) : QInv ps := by
  induction h with
  | refl => exact qInv_init n
  | tail hsteps hstep ih => exact qInv_preserved hstep ih

/-- C6: for `n` concurrent classify calls against one Classifier, in every
reachable state at most one call is executing (no two slots are
`running`), completions respect submission order (a settled job has all
earlier jobs settled), and when no step remains every one of the `n`
calls has settled, so exactly `n` serialized executions occur. -/
theorem classify_queue_single_flight (n : Nat) (ps : List JobPhase)
    (hreach : queueReachable n ps) :
    (∀ (i j ki kj : Nat), i ≠ j → ps[i]? = some (JobPhase.running ki) →
      ps[j]? = some (JobPhase.running kj) → False) ∧
    (∀ (i j : Nat), j < i → ps[i]? = some JobPhase.settled → ps[j]? = some JobPhase.settled) ∧
    ((∀ qs, ¬ QStep ps qs) → ∀ (i : Nat) (phi : JobPhase), ps[i]? = some phi → phi = JobPhase.settled) := by
  have hinv := qInv_reachable hreach
  refine ⟨?_, ?_, ?_⟩
  · intro i j ki kj hne hi hj
    rcases Nat.lt_or_ge j i with hlt | hge
    · have := hinv i j (JobPhase.running ki) hlt hi (by simp)
      rw [hj] at this
      exact absurd (Option.some.inj this) (by simp)
    · have hlt2 : i < j := by omega
      have := hinv j i (JobPhase.running kj) hlt2 hj (by simp)
      rw [hi] at this
      exact absurd (Option.some.inj this) (by simp)
  · intro i j hj hi
    exact hinv i j JobPhase.settled hj hi (by simp)
  · intro hterm i
    induction i using Nat.strong_induction_on with
    | _ i ih =>
      intro phi hphi
      by_contra hne
      cases phi with
      | queued =>
        have hstart : i = 0 ∨ ps[i - 1]? = some JobPhase.settled := by
          by_cases h0 : i = 0
          · exact Or.inl h0
          · right
            have hlen : i < ps.length := (List.getElem?_eq_some.mp hphi).1
            have hlen2 : i - 1 < ps.length := by omega
            have hsome : ps[i - 1]? = some (ps[i - 1]) :=
              (List.getElem?_eq_some_getElem_iff ps (i - 1) hlen2).mpr trivial
            have := ih (i - 1) (by omega) (ps[i - 1]) hsome
            rw [hsome, this]
        exact hterm _ (QStep.start ps i 0 hphi hstart)
      | running k =>
        cases k with
        | zero => exact hterm _ (QStep.finish ps i hphi)
        | succ k2 => exact hterm _ (QStep.work ps i k2 hphi)
      | settled => exact hne rfl

/-- C6 witness: a concrete two-call run of the chain reaching the fully
settled state, with the FIFO-completion clause applied there. -/
theorem classify_queue_single_flight_witness :
    ([JobPhase.settled, JobPhase.settled] : List JobPhase)[0]? = some JobPhase.settled := by
  have h1 : QStep (List.replicate 2 JobPhase.queued) [JobPhase.running 0, JobPhase.queued] :=
    QStep.start (List.replicate 2 JobPhase.queued) 0 0 rfl (Or.inl rfl)
  have h2 : QStep [JobPhase.running 0, JobPhase.queued] [JobPhase.settled, JobPhase.queued] :=
    QStep.finish [JobPhase.running 0, JobPhase.queued] 0 rfl
  have h3 : QStep [JobPhase.settled, JobPhase.queued] [JobPhase.settled, JobPhase.running 0] :=
    QStep.start [JobPhase.settled, JobPhase.queued] 1 0 rfl (Or.inr rfl)
  have h4 : QStep [JobPhase.settled, JobPhase.running 0] [JobPhase.settled, JobPhase.settled] :=
    QStep.finish [JobPhase.settled, JobPhase.running 0] 1 rfl
  have hreach : queueReachable 2 [JobPhase.settled, JobPhase.settled] :=
    Relation.ReflTransGen.tail
      (Relation.ReflTransGen.tail
        (Relation.ReflTransGen.tail (Relation.ReflTransGen.tail Relation.ReflTransGen.refl h1)
          h2) h3) h4
  exact (classify_queue_single_flight 2 [JobPhase.settled, JobPhase.settled] hreach).2.1 1 0
    (by omega) rfl

/-- The loop invariant is preserved by ticks and worker responses. -/
theorem lInv_preserved {s t : LiveState} (hstep : LStep s t) (hinv : LInv s) : LInv t := by
  obtain ⟨hle, hbusy⟩ := hinv
  cases hstep with
  | tickStep env =>
    unfold tick sendFrameToWorker
    split_ifs with h1 h2 h3 h4 <;> try exact ⟨hle, hbusy⟩
    · refine ⟨hle, ?_⟩
      intro hc
      have hc2 : s.inflight = 1 := hc
      exact absurd (hbusy hc2) (by simp [h2.1])
    · have h0 : s.inflight = 0 := by
        by_contra hne
        have h1eq : s.inflight = 1 := by omega
        have hb := hbusy h1eq
        rw [h2.1] at hb
        simp at hb
      refine ⟨?_, fun _ => rfl⟩
      show s.inflight + 1 ≤ 1
      omega
  | respondStep isError h =>
    unfold applyResponse
    split_ifs with h1
    · refine ⟨?_, ?_⟩
      · show s.inflight - 1 ≤ 1
        omega
      · intro hc
        have hc2 : s.inflight - 1 = 1 := hc
        exfalso
        omega
    · refine ⟨?_, ?_⟩
      · show s.inflight - 1 ≤ 1
        omega
      · intro hc
        have hc2 : s.inflight - 1 = 1 := hc
        exfalso
        omega

/-- C7: while the busy flag is set, a scheduling tick posts no
classify-batch message, captures nothing (the state is unchanged) and
still re-arms itself; and in every reachable interleaving of ticks and
worker responses at most one batch is in flight, so stale frames are
never buffered. -/
theorem live_loop_backpressure :
    (∀ (env : TickEnv) (st : LiveState), st.isWorkerBusy = true → env.connected = true →
      tick env st = (st, 0, true)) ∧
    (∀ st : LiveState, liveReachable st → st.inflight ≤ 1) := by
  constructor
  · intro env st hbusy hconn
    unfold tick
    rw [if_neg (by simp [hconn]), if_neg (by simp [hbusy])]
  · intro st hreach
    have hinv : LInv st := by
      induction hreach with
      | refl => exact ⟨by simp, by simp⟩
      | tail hsteps hstep ih => exact lInv_preserved hstep ih
    exact hinv.1

/-- C7 witness: the busy-tick clause applied at a busy state with one
batch in flight, and the in-flight bound applied at the initial state. -/
theorem live_loop_backpressure_witness :
    tick ⟨true, true, true, false⟩ ⟨true, 1⟩ = (⟨true, 1⟩, 0, true) ∧
    ({ isWorkerBusy := false, inflight := 0 } : LiveState).inflight ≤ 1 :=
  ⟨live_loop_backpressure.1 ⟨true, true, true, false⟩ ⟨true, 1⟩ rfl rfl,
   live_loop_backpressure.2 { isWorkerBusy := false, inflight := 0 } Relation.ReflTransGen.refl⟩

/-- C1: evaluated at the failing input — an `error` worker response
arriving while the busy flag is set — the interactive-thread message
handler leaves the busy flag set (the `error` branch of `onmessage` only
logs), wedging the loop; only a `results` response clears the flag. -/
theorem worker_error_message_leaves_busy_set :
    (handleWorkerMessage none 0 100 ⟨true, ⟨[], 0, 0, ""⟩, 0, 0⟩
      (MainMsg.error ("worker failed"))).isWorkerBusy = true ∧
    (handleWorkerMessage none 0 100 ⟨true, ⟨[], 0, 0, ""⟩, 0, 0⟩
      (MainMsg.results [] 0 (""))).isWorkerBusy = false :=
  ⟨rfl, rfl⟩

/-- C2: evaluated at the failing input — a batch whose processing throws
before `imageBitmap.close()` is reached — the worker posts an `error`
message but does not close the transferred bitmap; the bitmap is closed
only on the paths that reach the close call. -/
theorem classify_batch_bitmap_not_closed_on_exception :
    (handleClassifyBatch ⟨true, false⟩ (BatchOutcome.throwsBeforeClose ("boom"))).posted
        = [WorkerOut.error ("boom")] ∧
    (handleClassifyBatch ⟨true, false⟩
        (BatchOutcome.throwsBeforeClose ("boom"))).bitmapClosed = false ∧
    (handleClassifyBatch ⟨true, false⟩ (BatchOutcome.completes [] 0)).bitmapClosed = true ∧
    (handleClassifyBatch ⟨true, false⟩ (BatchOutcome.completes [] 0)).posted
        = [WorkerOut.results [] 0] :=
  ⟨rfl, rfl, rfl, rfl⟩

/-- C10: a classify-batch arriving while the worker has no initialized
classifier or is still busy is dropped silently: no message is posted,
the bitmap is not closed, and the worker state is unchanged. -/
theorem classify_batch_dropped_when_uninitialized_or_busy :
    ∀ (st : WorkerState) (outcome : BatchOutcome),
      st.initialized = false ∨ st.isBusy = true →
      handleClassifyBatch st outcome = { state := st, posted := [], bitmapClosed := false } := by
  intro st outcome h
  unfold handleClassifyBatch
  rw [if_pos h]

/-- C10 witness: the drop clause applied to an uninitialized worker. -/
theorem classify_batch_dropped_when_uninitialized_or_busy_witness :
    handleClassifyBatch ⟨false, false⟩ (BatchOutcome.completes [] 0)
      = { state := ⟨false, false⟩, posted := [], bitmapClosed := false } :=
  classify_batch_dropped_when_uninitialized_or_busy ⟨false, false⟩
    (BatchOutcome.completes [] 0) (Or.inl rfl)

/-- C8: issuing a validation request strictly increases the per-marker
sequence number; a delivered result whose tag is no longer the latest
sequence number for its marker is discarded (the state is unchanged); in
particular a result tagged `k` arriving after the counter of its marker has
advanced to `k + 1` does not overwrite current state. -/
theorem validate_markers_staleness_guard :
    (∀ (st : MarkerState) (id : String),
      (issueRequest st id).2 = st.markerValidationRequests id + 1 ∧
      (issueRequest st id).1.markerValidationRequests id
        = st.markerValidationRequests id + 1) ∧
    (∀ (st : MarkerState) (captured : Int) (id : String) (k : Nat) (res : ValidResult),
      st.markerValidationRequests id ≠ k → applyResult st captured id k res = st) ∧
    (∀ (st : MarkerState) (id : String) (k : Nat) (res : ValidResult),
      st.markerValidationRequests id = k →
      applyResult (issueRequest st id).1 (issueRequest st id).1.imageIndex id k res
        = (issueRequest st id).1) := by
  have hdiscard : ∀ (st : MarkerState) (captured : Int) (id : String) (k : Nat)
      (res : ValidResult),
      st.markerValidationRequests id ≠ k → applyResult st captured id k res = st := by
    intro st captured id k res hne
    unfold applyResult
    rw [if_pos (Or.inr hne)]
  refine ⟨?_, hdiscard, ?_⟩
  · intro st id
    refine ⟨rfl, ?_⟩
    show (if id = id then st.markerValidationRequests id + 1
      else st.markerValidationRequests id) = st.markerValidationRequests id + 1
    rw [if_pos rfl]
  · intro st id k res hk
    apply hdiscard
    show (if id = id then st.markerValidationRequests id + 1
      else st.markerValidationRequests id) ≠ k
    rw [if_pos rfl]
    omega

/-- C8 witness: a result tagged 0 delivered after the counter advanced to
1 leaves the issued state unchanged. -/
theorem validate_markers_staleness_guard_witness :
    applyResult (issueRequest ⟨0, fun _ => 0, fun _ => none⟩ ("m1")).1
        (issueRequest ⟨0, fun _ => 0, fun _ => none⟩ ("m1")).1.imageIndex ("m1") 0
        ⟨1, 2, "track", true, "track"⟩
      = (issueRequest ⟨0, fun _ => 0, fun _ => none⟩ ("m1")).1 :=
  validate_markers_staleness_guard.2.2 ⟨0, fun _ => 0, fun _ => none⟩ ("m1") 0
    ⟨1, 2, "track", true, "track"⟩ rfl
